import Mathlib

/-!
Verification of the SaiReeCMPO content-management system's core logic:
the one-time-password engine, the session/auth state machine, and the
document-conversion pipeline.  Each Python function from the source is
shallowly embedded as an executable Lean definition; external effects
(database rows, subprocess results, parser output, clock readings) are
passed in explicitly as parameters.
-/

namespace SaiReeCMPO

/-! ### Python string primitives

Python text fields are modelled as `List Char`; `str.upper`, `str.lower`,
`str.split(',')`, `','.join(...)` and the substring test `in` are embedded
directly. -/

/-- Python `sep in s` test: does `pat` start `s`? (helper) -/
def startOf : List Char → List Char → Bool
  | [], _ => true
  | _ :: _, [] => false
  | p :: ps, c :: cs => (p = c) && startOf ps cs

/-- Python `pat in s` substring test on character lists. -/
def hasSub (pat : List Char) : List Char → Bool
  | [] => startOf pat []
  | c :: cs => startOf pat (c :: cs) || hasSub pat cs

/-- Python `s.split(',')`.  Note `''.split(',') == ['']`. -/
def splitComma : List Char → List (List Char)
  | [] => [[]]
  | c :: cs =>
    if c = ',' then [] :: splitComma cs
    else
      match splitComma cs with
      | [] => [[c]]
      | g :: gs => (c :: g) :: gs

/-- Python `','.join(groups)`. -/
def joinComma : List (List Char) → List Char
  | [] => []
  | [g] => g
  | g :: gs => g ++ ',' :: joinComma gs

/-- Python `s.upper()` on a character list (ASCII is all the codes use). -/
def upperL (s : List Char) : List Char := s.map Char.toUpper

/-! ### One-time-password engine: backup codes
(`accounts/models.py`, `CustomUser.verify_backup_code` /
`get_remaining_backup_codes_count` / `generate_backup_codes`).
The `mfa_backup_codes` text field is the comma-joined code list; the
randomly drawn codes themselves are a parameter of `generate_backup_codes`. -/

/-- `CustomUser.generate_backup_codes`: store the freshly drawn codes as a
comma-joined text field.  The random draw (`secrets.token_hex(4).upper()`
for each code) is abstracted into the `codes` argument. -/
def generate_backup_codes (codes : List (List Char)) : List Char :=
  joinComma codes

/-- `CustomUser.verify_backup_code`: case-insensitive single-use match.
Takes the current `mfa_backup_codes` field and the submitted code, returns
the outcome together with the new field value. -/
def verify_backup_code (stored : List Char) (code : List Char) :
    Bool × List Char :=
  if stored = [] then (false, stored)
  else
    let codes := splitComma stored
    let up := upperL code
    if up ∈ codes then (true, joinComma (codes.erase up))
    else (false, stored)

/-- `CustomUser.get_remaining_backup_codes_count`. -/
def get_remaining_backup_codes_count (stored : List Char) : Nat :=
  if stored = [] then 0 else (splitComma stored).length

/-- The codes listed in a stored `mfa_backup_codes` field. -/
def storedCodes (stored : List Char) : List (List Char) :=
  if stored = [] then [] else splitComma stored

/-! ### One-time-password engine: time-based codes
(`accounts/models.py`, `CustomUser.verify_mfa_token`).  The library call
`pyotp.TOTP(secret).verify(token, valid_window=1)` compares the submitted
token against the codes of the current 30-second time step and one step on
either side.  The HMAC-based code derivation is an external collaborator and
is abstracted into `digest : secret → step → code`. -/

/-- `CustomUser.verify_mfa_token`: fails closed on an empty secret, else
accepts the token iff it matches the code of step `step - 1`, `step`, or
`step + 1` (pyotp `valid_window=1`). -/
def verify_mfa_token (digest : String → Int → String) (secret : String)
    (token : String) (step : Int) : Bool :=
  if secret = "" then false
  else
    (token = digest secret (step - 1)) || (token = digest secret step) ||
      (token = digest secret (step + 1))

/-! ### Password reset tokens
(`accounts/models.py`, `PasswordResetToken.is_valid`).  Time is modelled in
seconds. -/

/-- `PasswordResetToken.is_valid`: not used and strictly before
`created_at + 24h`. -/
def is_valid (used : Bool) (created_at now : Int) : Bool :=
  if used then false else decide (now < created_at + 24 * 3600)

/-! ### Session/auth state machine
(`accounts/views.py`, `LoginView.post` and `MFAVerifyView.post`).
The user table, the client request metadata and the web session are explicit
values; `authenticate` models Django's credential check against the custom
user model (exact email match, password check, active account). -/

/-- A row of the custom user table (`accounts/models.py`, `CustomUser`),
restricted to the fields the auth flow reads. -/
structure UserRec where
  id : Nat
  email : String
  password : String
  is_active : Bool
  mfa_enabled : Bool
  mfa_secret : String
  mfa_backup_codes : List Char
  deriving Repr, DecidableEq

/-- A `LoginAttempt` row (`accounts/models.py`). -/
structure LoginAttempt where
  email : String
  ip_address : String
  user_agent : String
  successful : Bool
  deriving Repr, DecidableEq

/-- The web session state the auth flow reads and writes: the authenticated
user (if any), the pending-MFA keys `mfa_user_id` / `mfa_remember_me`
(absent keys are `none`), and whether the session was marked to expire at
browser close (`set_expiry(0)`). -/
structure Session where
  user_id : Option Nat
  mfa_user_id : Option Nat
  mfa_remember_me : Option Bool
  expire_on_close : Bool
  deriving Repr, DecidableEq

/-- Django credential check as used by `CustomLoginForm` (an
`AuthenticationForm` over the email-keyed user model): the first user whose
email equals the submitted username, whose password checks, and who is
active. -/
def authenticate (users : List UserRec) (username password : String) :
    Option UserRec :=
  users.find? fun u => u.email = username && u.password = password && u.is_active

/-- Result of one `LoginView.post`: the new session, the `LoginAttempt`
rows created, and the redirect target (`none` means the login page is
re-rendered). -/
structure LoginPostResult where
  session : Session
  new_attempts : List LoginAttempt
  redirect : Option String
  deriving Repr, DecidableEq

/-- `LoginView.post` (`accounts/views.py` lines 59–103). -/
def login_post (users : List UserRec) (s : Session)
    (username password : String) (remember_me : Bool) (ip ua : String) :
    LoginPostResult :=
  match authenticate users username password with
  | some u =>
    let att : LoginAttempt := ⟨u.email, ip, ua, true⟩
    if u.mfa_enabled then
      { session := { s with mfa_user_id := some u.id,
                            mfa_remember_me := some remember_me },
        new_attempts := [att],
        redirect := some "accounts:mfa_verify" }
    else
      let s1 : Session := { s with user_id := some u.id }
      let s2 := if remember_me then s1 else { s1 with expire_on_close := true }
      { session := s2, new_attempts := [att],
        redirect := some "accounts:dashboard" }
  | none =>
    { session := s,
      new_attempts := [⟨username, ip, ua, false⟩],
      redirect := none }

/-- Outcome of one `MFAVerifyView.post` (with its `dispatch` guard):
redirect to login when no MFA verification is pending, a 404 when the
pending user id matches no row, else success/failure carrying the resulting
session and the (possibly updated) user row. -/
inductive MfaOutcome where
  | redirect_login
  | not_found
  | success (s : Session) (u : UserRec)
  | failure (s : Session) (u : UserRec)
  deriving Repr, DecidableEq

/-- `MFAVerifyView` `dispatch` + `post` (`accounts/views.py` lines
106–155).  `digest` and `step` feed the time-based check of
`verify_mfa_token`. -/
def mfa_verify_post (digest : String → Int → String) (users : List UserRec)
    (s : Session) (token : String) (use_backup : Bool) (step : Int) :
    MfaOutcome :=
  match s.mfa_user_id with
  | none => .redirect_login
  | some uid =>
    match users.find? fun u => u.id = uid with
    | none => .not_found
    | some u =>
      let vu : Bool × UserRec :=
        if use_backup then
          let r := verify_backup_code u.mfa_backup_codes token.toList
          (r.1, { u with mfa_backup_codes := r.2 })
        else
          (verify_mfa_token digest u.mfa_secret token step, u)
      if vu.1 then
        let remember := s.mfa_remember_me.getD false
        let s1 : Session := { s with user_id := some vu.2.id,
                                     mfa_user_id := none,
                                     mfa_remember_me := none }
        let s2 := if remember then s1 else { s1 with expire_on_close := true }
        .success s2 vu.2
      else
        .failure s vu.2

/-! ### Document conversion pipeline
(`pdfapp/views.py`, `convert_docx_to_pdf` and `process_document`;
`pdfapp/models.py`, `PDFDocument` / `ConversionLog`).
The two converters return Python pairs `(value_or_none, error_or_none)`,
modelled as `Option String × Option String`; generated files are modelled
by their content.  The external subprocess run and any unhandled
orchestration exception are explicit parameters. -/

/-- The fields of a `PDFDocument` row the pipeline reads and writes. -/
structure PDFDoc where
  pdf_file : Option String
  html_content : String
  html_file : Option String
  status : String
  error_message : String
  processed_at : Option Int
  deriving Repr, DecidableEq

/-- A `ConversionLog` row (action tag and message). -/
structure LogEntry where
  action : String
  message : String
  deriving Repr, DecidableEq

/-- What the external `soffice` invocation did: ran to completion with a
return code, a captured stderr and an output file produced or not;
exceeded the 120 s deadline; or raised in-process. -/
inductive RunOutcome where
  | completed (returncode : Int) (stderr : String) (fileProduced : Bool)
  | timedOut
  | raised (msg : String)
  deriving Repr, DecidableEq

/-- `convert_docx_to_pdf` (`pdfapp/views.py` lines 25–47): on return code 0
the expected output path is returned if the file exists, else the error
"PDF file not generated"; on non-zero return code the captured stderr is
the error; on timeout the error is "Conversion timed out"; any other
exception yields its message.  `pdfPath` is the joined output path. -/
def convert_docx_to_pdf (outcome : RunOutcome) (pdfPath : String) :
    Option String × Option String :=
  match outcome with
  | .completed rc stderr fileProduced =>
    if rc = 0 then
      if fileProduced then (some pdfPath, none)
      else (none, some "PDF file not generated")
    else (none, some stderr)
  | .timedOut => (none, some "Conversion timed out")
  | .raised msg => (none, some msg)

/-- The PDF branch of `process_document`: save the artifact and log
`pdf_success` when a path was returned (and the file exists — Python
`if pdf_path and os.path.exists(pdf_path)`), else log `pdf_error` only when
the error value is truthy (non-`None` and non-empty). -/
def pdf_step (doc : PDFDoc) (res : Option String × Option String) :
    PDFDoc × List LogEntry :=
  let errLogs : List LogEntry :=
    match res.2 with
    | some e =>
      if e ≠ "" then [⟨"pdf_error", "PDF conversion failed: " ++ e⟩] else []
    | none => []
  match res.1 with
  | some p =>
    if p ≠ "" then
      ({ doc with pdf_file := some p },
       [⟨"pdf_success", "PDF conversion successful"⟩])
    else (doc, errLogs)
  | none => (doc, errLogs)

/-- The HTML branch of `process_document`: store the content and save the
`.html` file, logging `html_success`, when the converter returned truthy
content; else log `html_error` only when the error value is truthy. -/
def html_step (doc : PDFDoc) (res : Option String × Option String) :
    PDFDoc × List LogEntry :=
  let errLogs : List LogEntry :=
    match res.2 with
    | some e =>
      if e ≠ "" then [⟨"html_error", "HTML conversion failed: " ++ e⟩] else []
    | none => []
  match res.1 with
  | some h =>
    if h ≠ "" then
      ({ doc with html_content := h, html_file := some h },
       [⟨"html_success", "HTML conversion successful"⟩])
    else (doc, errLogs)
  | none => (doc, errLogs)

/-- `process_document` (`pdfapp/views.py` lines 238–326).  `exc` is an
unhandled exception escaping the orchestration body (e.g. resolving
`document.source_file.path`); `pdfRes` / `htmlRes` are the pairs returned
by the PDF and HTML converters; `now` is the clock reading for
`processed_at`.  Returns the saved document and the appended
`ConversionLog` rows in order. -/
def process_document (doc : PDFDoc) (exc : Option String)
    (pdfRes htmlRes : Option String × Option String) (now : Int) :
    PDFDoc × List LogEntry :=
  let doc0 : PDFDoc := { doc with status := "processing" }
  let startLog : LogEntry := ⟨"start", "Starting document conversion"⟩
  match exc with
  | some e =>
    ({ doc0 with status := "failed", error_message := e },
     [startLog, ⟨"error", "Processing failed: " ++ e⟩])
  | none =>
    let r1 := pdf_step doc0 pdfRes
    let r2 := html_step r1.1 htmlRes
    ({ r2.1 with status := "completed", processed_at := some now },
     startLog :: (r1.2 ++ r2.2 ++ [⟨"complete", "Document processing completed"⟩]))

/-- `reprocess_document` (`pdfapp/views.py` lines 478–490) re-runs the full
pipeline on the existing row, appending to its logs. -/
def reprocess_document (doc : PDFDoc) (exc : Option String)
    (pdfRes htmlRes : Option String × Option String) (now : Int) :
    PDFDoc × List LogEntry :=
  process_document doc exc pdfRes htmlRes now

/-- A freshly uploaded document: artifacts and error message empty, status
`pending` (`PDFDocument` field defaults). -/
def freshDoc : PDFDoc :=
  { pdf_file := none, html_content := "", html_file := none,
    status := "pending", error_message := "", processed_at := none }

/-! ### DOCX → HTML conversion
(`pdfapp/views.py`, `convert_docx_to_html`, lines 54–154).  The
word-processor document structure exposed by the parser (paragraphs with a
style name, an alignment and formatted runs; tables of cell texts) is the
input; the function body is embedded append-for-append.  Parser exceptions
are handled at the orchestration level (`process_document`'s `htmlRes`). -/

/-- A text run: `run.text`, `run.bold`, `run.italic`, `run.underline`. -/
structure DocxRun where
  text : String
  bold : Bool
  italic : Bool
  underline : Bool
  deriving Repr, DecidableEq

/-- `para.alignment` values the converter distinguishes. -/
inductive ParaAlign where
  | default | center | right | justify
  deriving Repr, DecidableEq

/-- A paragraph: optional style name, alignment, runs. -/
structure DocxPara where
  style : Option String
  alignment : ParaAlign
  runs : List DocxRun
  deriving Repr, DecidableEq

/-- A table as the list of its rows' cell texts. -/
structure DocxTable where
  rows : List (List String)
  deriving Repr, DecidableEq

/-- The parsed word-processor document. -/
structure DocxFile where
  paragraphs : List DocxPara
  tables : List DocxTable
  deriving Repr, DecidableEq

/-- Python `sep.join(parts)`. -/
def pyJoin (sep : String) : List String → String
  | [] => ""
  | [s] => s
  | s :: rest => s ++ sep ++ pyJoin sep rest

/-- python-docx `para.text`: concatenation of the runs' texts. -/
def paraText (p : DocxPara) : String :=
  pyJoin "" (p.runs.map (·.text))

/-- Python `not s.strip()`: the text is empty or all whitespace. -/
def isBlank (s : String) : Bool :=
  s.toList.all (·.isWhitespace)

/-- Python `s.lower()`. -/
def pyLower (s : String) : String := ⟨s.data.map Char.toLower⟩

/-- Python `pat in s` on strings. -/
def strHasSub (s pat : String) : Bool := hasSub pat.toList s.toList

/-- One run's HTML: wrap in `<strong>`, then `<em>`, then `<u>` per its
formatting flags. -/
def runHtml (r : DocxRun) : String :=
  let t0 := r.text
  let t1 := if r.bold then "<strong>" ++ t0 ++ "</strong>" else t0
  let t2 := if r.italic then "<em>" ++ t1 ++ "</em>" else t1
  if r.underline then "<u>" ++ t2 ++ "</u>" else t2

/-- One paragraph's HTML part: `<p>&nbsp;</p>` for blank text, else a tag
chosen from the style name ("heading 1/2/3" substring ⇒ h1/h2/h3, else p),
an alignment class, and the formatted runs (empty-text runs skipped). -/
def paraHtml (p : DocxPara) : String :=
  if isBlank (paraText p) then "<p>&nbsp;</p>"
  else
    let style_name := match p.style with
      | some s => pyLower s
      | none => ""
    let tag :=
      if strHasSub style_name "heading 1" then "h1"
      else if strHasSub style_name "heading 2" then "h2"
      else if strHasSub style_name "heading 3" then "h3"
      else "p"
    let classes : List String :=
      match p.alignment with
      | .center => ["center"]
      | .right => ["right"]
      | .justify => ["justify"]
      | .default => []
    let content := pyJoin "" ((p.runs.filter fun r => r.text ≠ "").map runHtml)
    let class_attr :=
      if classes ≠ [] then " class=\"" ++ pyJoin " " classes ++ "\""
      else ""
    "<" ++ tag ++ class_attr ++ ">" ++ content ++ "</" ++ tag ++ ">"

/-- One table's HTML parts. -/
def tableHtml (t : DocxTable) : List String :=
  "<table>" ::
    (t.rows.flatMap fun row =>
      "<tr>" :: (row.map fun cell => "<td>" ++ cell ++ "</td>") ++ ["</tr>"])
    ++ ["</table>"]

/-- The embedded style sheet of `convert_docx_to_html`. -/
def docxCss : String :=
  "\n        <style>\n" ++
  "            body \x7b font-family: \x27Calibri\x27, sans-serif; max-width: 800px; margin: 0 auto; padding: 20px; \x7d\n" ++
  "            h1 \x7b font-size: 24pt; margin: 20px 0; \x7d\n" ++
  "            h2 \x7b font-size: 18pt; margin: 16px 0; \x7d\n" ++
  "            h3 \x7b font-size: 14pt; margin: 12px 0; \x7d\n" ++
  "            p \x7b margin: 10px 0; line-height: 1.5; \x7d\n" ++
  "            .center \x7b text-align: center; \x7d\n" ++
  "            .right \x7b text-align: right; \x7d\n" ++
  "            .justify \x7b text-align: justify; \x7d\n" ++
  "            .bold \x7b font-weight: bold; \x7d\n" ++
  "            .italic \x7b font-style: italic; \x7d\n" ++
  "            .underline \x7b text-decoration: underline; \x7d\n" ++
  "            table \x7b border-collapse: collapse; width: 100%; margin: 10px 0; \x7d\n" ++
  "            td, th \x7b border: 1px solid #ddd; padding: 8px; \x7d\n" ++
  "            ul, ol \x7b margin: 10px 0; padding-left: 30px; \x7d\n" ++
  "        </style>\n        "

/-- The `html_parts` list assembled by `convert_docx_to_html`. -/
def docx_html_parts (d : DocxFile) : List String :=
  ["<!DOCTYPE html>", "<html lang=\"en\">", "<head>",
   "<meta charset=\"UTF-8\">",
   "<meta name=\"viewport\" content=\"width=device-width, initial-scale=1.0\">",
   "<title>Converted Document</title>", docxCss, "</head>", "<body>"]
  ++ d.paragraphs.map paraHtml
  ++ (d.tables.flatMap tableHtml)
  ++ ["</body>", "</html>"]

/-- `convert_docx_to_html`: the parts joined by newlines. -/
def convert_docx_to_html (d : DocxFile) : String :=
  pyJoin "\n" (docx_html_parts d)

/-- The one-paragraph document of the end-to-end scenario: style
"Heading 1", a single bold run "Title". -/
def titleDoc : DocxFile :=
  { paragraphs :=
      [{ style := some "Heading 1", alignment := .default,
         runs := [{ text := "Title", bold := true, italic := false,
                    underline := false }] }],
    tables := [] }

/-! ## Theorems -/

/-! ### Split/join lemmas for the backup-code field -/

theorem splitComma_no_comma (g : List Char) (hg : ',' ∉ g) :
    splitComma g = [g] := by
  induction g with
  | nil => rfl
  | cons c cs ih =>
    have hc : c ≠ ',' := fun h => hg (h ▸ List.mem_cons_self c cs)
    have ihr := ih (fun h => hg (List.mem_cons_of_mem c h))
    simp only [splitComma, if_neg hc, ihr]

theorem splitComma_append (g rest : List Char) (hg : ',' ∉ g) :
    splitComma (g ++ ',' :: rest) = g :: splitComma rest := by
  induction g with
  | nil => simp [splitComma]
  | cons c cs ih =>
    have hc : c ≠ ',' := fun h => hg (h ▸ List.mem_cons_self c cs)
    have ihr := ih (fun h => hg (List.mem_cons_of_mem c h))
    simp only [List.cons_append, splitComma, if_neg hc, List.append_eq, ihr]

theorem splitComma_joinComma (l : List (List Char)) (hl : l ≠ [])
    (hc : ∀ g ∈ l, ',' ∉ g) :
    splitComma (joinComma l) = l := by
  induction l with
  | nil => exact absurd rfl hl
  | cons g gs ih =>
    cases gs with
    | nil => exact splitComma_no_comma g (hc g (List.mem_cons_self g []))
    | cons a as =>
      have h1 : joinComma (g :: a :: as) = g ++ ',' :: joinComma (a :: as) := rfl
      rw [h1, splitComma_append g _ (hc g (List.mem_cons_self g _)),
        ih (by simp) (fun x hx => hc x (List.mem_cons_of_mem g hx))]

theorem joinComma_ne_nil (l : List (List Char)) (hl : l ≠ [])
    (hne : ∀ g ∈ l, g ≠ []) :
    joinComma l ≠ [] := by
  cases l with
  | nil => exact absurd rfl hl
  | cons g gs =>
    cases gs with
    | nil => exact hne g (List.mem_cons_self g [])
    | cons a as =>
      have h1 : joinComma (g :: a :: as) = g ++ ',' :: joinComma (a :: as) := rfl
      rw [h1]
      simp

/-- C3: `PasswordResetToken.is_valid` is true iff the token is unused and
the current time is strictly before `created_at + 24h`; in particular it is
true immediately after creation and at 23h59m, and false at 24h00m01s or
any time once used. -/
theorem C3_reset_token_validity :
    (∀ (used : Bool) (c n : Int),
        is_valid used c n = true ↔ (used = false ∧ n < c + 86400)) ∧
    (∀ c : Int, is_valid false c c = true) ∧
    (∀ c : Int, is_valid false c (c + (23 * 3600 + 59 * 60)) = true) ∧
    (∀ c : Int, is_valid false c (c + (24 * 3600 + 1)) = false) ∧
    (∀ c n : Int, is_valid true c n = false) := by
  refine ⟨?_, ?_, ?_, ?_, ?_⟩
  · intro used c n
    cases used <;> simp [is_valid]
  · intro c; simp [is_valid]
  · intro c; simp [is_valid]
  · intro c; simp [is_valid]
  · intro c n; simp [is_valid]

/-- C10: with an empty `mfa_secret`, `verify_mfa_token` rejects every
submitted token at every time step (time-based verification fails closed
when no secret has been provisioned). -/
theorem C10_empty_secret_rejects_all :
    ∀ (digest : String → Int → String) (token : String) (step : Int),
      verify_mfa_token digest "" token step = false := by
  intro digest token step
  simp [verify_mfa_token]

/-- C7: for a non-empty secret, the time-based code of step `k` is accepted
by `verify_mfa_token` exactly at steps `k-1`, `k`, `k+1` (so the code for
the current step always verifies), and rejected outside that window —
assuming the codes of the three steps around the verification step do not
accidentally collide with the code of step `k`. -/
theorem C7_totp_window (digest : String → Int → String) (secret : String)
    (k j : Int) (hs : secret ≠ "")
    (hinj : ∀ i : Int, (i - j).natAbs ≤ 1 →
      digest secret i = digest secret k → i = k) :
    verify_mfa_token digest secret (digest secret k) j = true ↔
      (j - k).natAbs ≤ 1 := by
  unfold verify_mfa_token
  rw [if_neg hs]
  constructor
  · intro h
    simp only [Bool.or_eq_true, decide_eq_true_eq] at h
    rcases h with (h | h) | h
    · have := hinj (j - 1) (by omega) h.symm
      omega
    · have := hinj j (by omega) h.symm
      omega
    · have := hinj (j + 1) (by omega) h.symm
      omega
  · intro h
    have hk : k = j - 1 ∨ k = j ∨ k = j + 1 := by omega
    rcases hk with h' | h' | h' <;> subst h' <;> simp

/-- Witness for C7 at a concrete digest function, secret and steps. -/
theorem C7_totp_window_witness :
    ("S" : String) ≠ "" ∧
    verify_mfa_token (fun _ i => if i = 4 then "111111" else "222222") "S"
      ((fun _ i => if i = (4 : Int) then "111111" else "222222") "S" 4) 5 =
      true := by
  refine ⟨by decide, ?_⟩
  exact (C7_totp_window (fun _ i => if i = 4 then "111111" else "222222") "S"
    4 5 (by decide)
    (by
      intro i h1 h2
      by_cases hi : i = (4 : Int)
      · exact hi
      · have h2' : (if i = (4 : Int) then "111111" else "222222") =
            "111111" := h2
        rw [if_neg hi] at h2'
        exact absurd h2' (by decide))).mpr (by decide)

theorem not_mem_erase_self {α : Type} [BEq α] [LawfulBEq α] {l : List α}
    (hnd : l.Nodup) (a : α) : a ∉ l.erase a := by
  induction l with
  | nil => simp
  | cons c cs ih =>
    rw [List.erase_cons]
    by_cases hca : (c == a) = true
    · rw [if_pos hca]
      have hce : c = a := eq_of_beq hca
      subst hce
      exact (List.nodup_cons.mp hnd).1
    · rw [if_neg hca]
      intro hmem
      rcases List.mem_cons.mp hmem with h | h
      · exact hca (beq_iff_eq.mpr h.symm)
      · exact ih (List.nodup_cons.mp hnd).2 h

/-- C4: `verify_backup_code` over a freshly stored code set matches
case-insensitively; success removes exactly one instance (the stored list
becomes `l.erase code`), failure leaves the field unchanged and occurs
exactly when the uppercased code is absent (in particular on an empty set);
consuming the same code twice fails the second time; and
`get_remaining_backup_codes_count` equals the stored set's size before and
after consumption. -/
theorem C4_backup_codes (l : List (List Char)) (code : List Char)
    (hne : ∀ g ∈ l, g ≠ []) (hc : ∀ g ∈ l, ',' ∉ g) (hnd : l.Nodup) :
    ((verify_backup_code (generate_backup_codes l) code).1 = true ↔
        upperL code ∈ l) ∧
    (upperL code ∈ l →
      storedCodes (verify_backup_code (generate_backup_codes l) code).2 =
        l.erase (upperL code)) ∧
    (upperL code ∉ l →
      verify_backup_code (generate_backup_codes l) code =
        (false, generate_backup_codes l)) ∧
    (upperL code ∈ l →
      (verify_backup_code
        (verify_backup_code (generate_backup_codes l) code).2 code).1 =
        false) ∧
    (get_remaining_backup_codes_count (generate_backup_codes l) =
      l.length) ∧
    (upperL code ∈ l →
      get_remaining_backup_codes_count
        (verify_backup_code (generate_backup_codes l) code).2 =
        l.length - 1) := by
  by_cases hl : l = []
  · subst hl
    simp [verify_backup_code, generate_backup_codes, joinComma,
      get_remaining_backup_codes_count]
  · have hstored_ne : joinComma l ≠ [] := joinComma_ne_nil l hl hne
    have hsplit : splitComma (joinComma l) = l := splitComma_joinComma l hl hc
    have hgen : generate_backup_codes l = joinComma l := rfl
    have hverify : verify_backup_code (joinComma l) code =
        if upperL code ∈ l then (true, joinComma (l.erase (upperL code)))
        else (false, joinComma l) := by
      unfold verify_backup_code
      rw [if_neg hstored_ne]
      simp only [hsplit]
    by_cases hm : upperL code ∈ l
    · -- the submitted code (uppercased) is present: consumption succeeds
      have herase_sub : l.erase (upperL code) ⊆ l :=
        (List.erase_sublist (upperL code) l).subset
      have hlen : (l.erase (upperL code)).length + 1 = l.length := by
        have h1 := List.length_erase_of_mem hm
        have h2 : 0 < l.length := List.length_pos.mpr hl
        omega
      have hstored2 :
          storedCodes (joinComma (l.erase (upperL code))) =
            l.erase (upperL code) := by
        by_cases he : l.erase (upperL code) = []
        · rw [he]
          simp [storedCodes, joinComma]
        · have hne2 : joinComma (l.erase (upperL code)) ≠ [] :=
            joinComma_ne_nil _ he (fun g hg => hne g (herase_sub hg))
          rw [storedCodes, if_neg hne2,
            splitComma_joinComma _ he (fun g hg => hc g (herase_sub hg))]
      refine ⟨?_, ?_, ?_, ?_, ?_, ?_⟩
      · rw [hgen, hverify, if_pos hm]
        simp [hm]
      · intro _
        rw [hgen, hverify, if_pos hm]
        exact hstored2
      · intro hab
        exact absurd hm hab
      · intro _
        rw [hgen, hverify, if_pos hm]
        show (verify_backup_code (joinComma (l.erase (upperL code))) code).1 =
          false
        by_cases he : l.erase (upperL code) = []
        · rw [he]
          simp [verify_backup_code, joinComma]
        · have hne2 : joinComma (l.erase (upperL code)) ≠ [] :=
            joinComma_ne_nil _ he (fun g hg => hne g (herase_sub hg))
          unfold verify_backup_code
          rw [if_neg hne2,
            splitComma_joinComma _ he (fun g hg => hc g (herase_sub hg))]
          simp [not_mem_erase_self hnd (upperL code)]
      · rw [hgen, get_remaining_backup_codes_count, if_neg hstored_ne, hsplit]
      · intro _
        rw [hgen, hverify, if_pos hm]
        show get_remaining_backup_codes_count
          (joinComma (l.erase (upperL code))) = l.length - 1
        by_cases he : l.erase (upperL code) = []
        · rw [he]
          have : l.length = 1 := by
            rw [he] at hlen
            simpa using hlen.symm
          simp [get_remaining_backup_codes_count, joinComma, this]
        · have hne2 : joinComma (l.erase (upperL code)) ≠ [] :=
            joinComma_ne_nil _ he (fun g hg => hne g (herase_sub hg))
          rw [get_remaining_backup_codes_count, if_neg hne2,
            splitComma_joinComma _ he (fun g hg => hc g (herase_sub hg))]
          omega
    · -- the submitted code is absent: the call fails and changes nothing
      refine ⟨?_, fun h => absurd h hm, ?_, fun h => absurd h hm, ?_,
        fun h => absurd h hm⟩
      · rw [hgen, hverify, if_neg hm]
        simp [hm]
      · intro _
        rw [hgen, hverify, if_neg hm]
      · rw [hgen, get_remaining_backup_codes_count, if_neg hstored_ne, hsplit]

/-- Witness for C4 on the concrete stored set \x7b"AB12", "CD34"\x7d and the
lowercase submission "ab12". -/
theorem C4_backup_codes_witness :
    (∀ g ∈ [['A','B','1','2'], ['C','D','3','4']], g ≠ []) ∧
    (∀ g ∈ [['A','B','1','2'], ['C','D','3','4']], ',' ∉ g) ∧
    ([['A','B','1','2'], ['C','D','3','4']] : List (List Char)).Nodup ∧
    ((verify_backup_code
        (generate_backup_codes [['A','B','1','2'], ['C','D','3','4']])
        ['a','b','1','2']).1 = true ↔
      upperL ['a','b','1','2'] ∈ [['A','B','1','2'], ['C','D','3','4']]) :=
  ⟨by decide, by decide, by decide,
    (C4_backup_codes [['A','B','1','2'], ['C','D','3','4']] ['a','b','1','2']
      (by decide) (by decide) (by decide)).1⟩

/-- C2: every login submission creates exactly one `LoginAttempt` row, and
it carries the submitted email string together with the credential outcome:
`successful = true` exactly when the credentials verified, `false` (with the
unvalidated submitted email) otherwise. -/
theorem C2_login_attempt_record :
    ∀ (users : List UserRec) (s : Session) (username password : String)
      (remember_me : Bool) (ip ua : String),
      (login_post users s username password remember_me ip ua).new_attempts =
        [⟨username, ip, ua,
          (authenticate users username password).isSome⟩] := by
  intro users s username password remember_me ip ua
  unfold login_post
  cases h : authenticate users username password with
  | none => simp
  | some u =>
    have hp := List.find?_some h
    have hemail : u.email = username := by
      simp only [Bool.and_eq_true, decide_eq_true_eq] at hp
      exact hp.1.1
    cases hmfa : u.mfa_enabled <;> simp [hemail, hmfa]

/-- C6: when credentials verify, an MFA-disabled account gets an
authenticated session directly; an MFA-enabled account only gets the
pending-MFA session keys (account id and remember-me flag) with the
authenticated user unchanged, and a later MFA verification success clears
the pending keys and establishes the session honoring the stored
remember-me flag, while a verification failure leaves the session in the
pending state. -/
theorem C6_mfa_login_gating (users : List UserRec) (s s' : Session)
    (username password token : String) (remember rm : Bool) (ip ua : String)
    (digest : String → Int → String) (step : Int) (u : UserRec)
    (hauth : authenticate users username password = some u) :
    (u.mfa_enabled = false →
      (login_post users s username password remember ip ua).session.user_id =
        some u.id) ∧
    (u.mfa_enabled = true →
      (login_post users s username password remember ip ua).session.user_id =
        s.user_id ∧
      (login_post users s username password remember ip ua).session.mfa_user_id =
        some u.id ∧
      (login_post users s username password remember ip ua).session.mfa_remember_me =
        some remember) ∧
    (s'.mfa_user_id = some u.id →
      (users.find? fun v => v.id = u.id) = some u →
      s'.mfa_remember_me = some rm →
      verify_mfa_token digest u.mfa_secret token step = true →
      mfa_verify_post digest users s' token false step =
        .success
          { s' with user_id := some u.id, mfa_user_id := none,
                    mfa_remember_me := none,
                    expire_on_close :=
                      if rm then s'.expire_on_close else true } u) ∧
    (s'.mfa_user_id = some u.id →
      (users.find? fun v => v.id = u.id) = some u →
      verify_mfa_token digest u.mfa_secret token step = false →
      mfa_verify_post digest users s' token false step = .failure s' u) := by
  refine ⟨?_, ?_, ?_, ?_⟩
  · intro hmfa
    unfold login_post
    rw [hauth]
    simp only [hmfa, Bool.false_eq_true, if_false]
    cases remember <;> simp
  · intro hmfa
    unfold login_post
    rw [hauth]
    simp [hmfa]
  · intro hpend hfind hrm hver
    unfold mfa_verify_post
    simp only [hpend, hfind, hver, hrm]
    cases rm <;> simp
  · intro hpend hfind hver
    unfold mfa_verify_post
    simp only [hpend, hfind, hver]
    simp

/-- Witness for C6 at a concrete user table, session and digest. -/
theorem C6_mfa_login_gating_witness :
    authenticate
        [{ id := 7, email := "a@b.c", password := "pw", is_active := true,
           mfa_enabled := false, mfa_secret := "", mfa_backup_codes := [] }]
        "a@b.c" "pw" =
      some { id := 7, email := "a@b.c", password := "pw", is_active := true,
             mfa_enabled := false, mfa_secret := "",
             mfa_backup_codes := [] } ∧
    (login_post
        [{ id := 7, email := "a@b.c", password := "pw", is_active := true,
           mfa_enabled := false, mfa_secret := "", mfa_backup_codes := [] }]
        ⟨none, none, none, false⟩ "a@b.c" "pw" true "ip" "ua").session.user_id =
      some 7 :=
  ⟨by decide,
    (C6_mfa_login_gating
      [{ id := 7, email := "a@b.c", password := "pw", is_active := true,
         mfa_enabled := false, mfa_secret := "", mfa_backup_codes := [] }]
      ⟨none, none, none, false⟩ ⟨none, some 7, some true, false⟩
      "a@b.c" "pw" "000000" true true "ip" "ua" (fun _ _ => "000000") 0
      { id := 7, email := "a@b.c", password := "pw", is_active := true,
        mfa_enabled := false, mfa_secret := "", mfa_backup_codes := [] }
      (by decide)).1 rfl⟩

theorem pdf_step_actions (doc : PDFDoc) (res : Option String × Option String) :
    ∀ a ∈ (pdf_step doc res).2,
      a.action = "pdf_success" ∨ a.action = "pdf_error" := by
  rcases res with ⟨p, e⟩
  rcases p with _ | p <;> rcases e with _ | e <;>
    simp [pdf_step] <;> split <;> simp

theorem html_step_actions (doc : PDFDoc) (res : Option String × Option String) :
    ∀ a ∈ (html_step doc res).2,
      a.action = "html_success" ∨ a.action = "html_error" := by
  rcases res with ⟨h, e⟩
  rcases h with _ | h <;> rcases e with _ | e <;>
    simp [html_step] <;> split <;> simp

/-- C1: every run of `process_document` ends with status `completed` or
`failed` (never `pending`/`processing`); `failed` holds exactly when an
unhandled exception escaped the orchestration body, never because a
sub-path conversion failed; and `completed` coexists with an empty PDF
field, with an empty HTML field, and with both artifacts present. -/
theorem C1_terminal_status :
    (∀ (doc : PDFDoc) (exc : Option String)
       (pdfRes htmlRes : Option String × Option String) (now : Int),
      ((process_document doc exc pdfRes htmlRes now).1.status = "completed" ∨
        (process_document doc exc pdfRes htmlRes now).1.status = "failed") ∧
      ((process_document doc exc pdfRes htmlRes now).1.status = "failed" ↔
        exc.isSome)) ∧
    ((process_document freshDoc none (none, some "soffice error")
        (some "<html></html>", none) 0).1.status = "completed" ∧
      (process_document freshDoc none (none, some "soffice error")
        (some "<html></html>", none) 0).1.pdf_file = none) ∧
    ((process_document freshDoc none (some "PDF", none)
        (none, some "bad zip") 0).1.status = "completed" ∧
      (process_document freshDoc none (some "PDF", none)
        (none, some "bad zip") 0).1.html_content = "" ∧
      (process_document freshDoc none (some "PDF", none)
        (none, some "bad zip") 0).1.html_file = none) ∧
    ((process_document freshDoc none (some "PDF", none)
        (some "<html></html>", none) 0).1.status = "completed" ∧
      (process_document freshDoc none (some "PDF", none)
        (some "<html></html>", none) 0).1.pdf_file = some "PDF" ∧
      (process_document freshDoc none (some "PDF", none)
        (some "<html></html>", none) 0).1.html_content = "<html></html>") := by
  refine ⟨?_, by decide, by decide, by decide⟩
  intro doc exc pdfRes htmlRes now
  cases exc with
  | some e => simp [process_document]
  | none =>
    unfold process_document
    constructor
    · left
      rfl
    · simp

theorem pdf_step_doc_of_none (doc : PDFDoc)
    (res : Option String × Option String) (h : res.1 = none) :
    (pdf_step doc res).1 = doc := by
  rcases res with ⟨p, e⟩
  have hp : p = none := h
  subst hp
  rfl

theorem html_step_doc_of_none (doc : PDFDoc)
    (res : Option String × Option String) (h : res.1 = none) :
    (html_step doc res).1 = doc := by
  rcases res with ⟨p, e⟩
  have hp : p = none := h
  subst hp
  rfl

theorem pdf_step_frame (doc : PDFDoc) (res : Option String × Option String) :
    (pdf_step doc res).1.html_content = doc.html_content ∧
    (pdf_step doc res).1.html_file = doc.html_file ∧
    (pdf_step doc res).1.error_message = doc.error_message ∧
    (pdf_step doc res).1.status = doc.status := by
  rcases res with ⟨p, e⟩
  cases p with
  | none => exact ⟨rfl, rfl, rfl, rfl⟩
  | some pv =>
    by_cases hp : pv = ""
    · subst hp
      exact ⟨rfl, rfl, rfl, rfl⟩
    · simp [pdf_step, hp]

theorem html_step_frame (doc : PDFDoc) (res : Option String × Option String) :
    (html_step doc res).1.pdf_file = doc.pdf_file ∧
    (html_step doc res).1.error_message = doc.error_message ∧
    (html_step doc res).1.status = doc.status := by
  rcases res with ⟨p, e⟩
  cases p with
  | none => exact ⟨rfl, rfl, rfl⟩
  | some pv =>
    by_cases hp : pv = ""
    · subst hp
      exact ⟨rfl, rfl, rfl⟩
    · simp [html_step, hp]

theorem pdf_step_keeps_pdf (doc : PDFDoc)
    (res : Option String × Option String) (h : doc.pdf_file ≠ none) :
    (pdf_step doc res).1.pdf_file ≠ none := by
  rcases res with ⟨p, e⟩
  cases p with
  | none => exact h
  | some pv =>
    by_cases hp : pv = ""
    · subst hp
      exact h
    · simp [pdf_step, hp]

theorem html_step_keeps_html (doc : PDFDoc)
    (res : Option String × Option String) (h : doc.html_file ≠ none) :
    (html_step doc res).1.html_file ≠ none := by
  rcases res with ⟨p, e⟩
  cases p with
  | none => exact h
  | some pv =>
    by_cases hp : pv = ""
    · subst hp
      exact h
    · simp [html_step, hp]

/-- C9: the pipeline writes `pdf_file` / `html_content` / `html_file` only
on the corresponding successful sub-path and never clears them, and writes
`error_message` only when an orchestration exception occurs, never clearing
it; hence reprocessing a document whose sub-paths now fail leaves it with
status `completed`, fresh `pdf_error`/`html_error` logs, the artifacts of
an earlier successful run, and the error message of an earlier failed
run. -/
theorem C9_frame_effects :
    (∀ (doc : PDFDoc) (exc : Option String)
       (pdfRes htmlRes : Option String × Option String) (now : Int),
      (pdfRes.1 = none →
        (process_document doc exc pdfRes htmlRes now).1.pdf_file =
          doc.pdf_file) ∧
      (htmlRes.1 = none →
        (process_document doc exc pdfRes htmlRes now).1.html_content =
          doc.html_content ∧
        (process_document doc exc pdfRes htmlRes now).1.html_file =
          doc.html_file) ∧
      (exc = none →
        (process_document doc exc pdfRes htmlRes now).1.error_message =
          doc.error_message) ∧
      (exc.isSome →
        (process_document doc exc pdfRes htmlRes now).1.pdf_file =
          doc.pdf_file ∧
        (process_document doc exc pdfRes htmlRes now).1.html_content =
          doc.html_content ∧
        (process_document doc exc pdfRes htmlRes now).1.html_file =
          doc.html_file) ∧
      (doc.pdf_file ≠ none →
        (process_document doc exc pdfRes htmlRes now).1.pdf_file ≠ none) ∧
      (doc.html_file ≠ none →
        (process_document doc exc pdfRes htmlRes now).1.html_file ≠ none)) ∧
    ((process_document
        (process_document
          (process_document freshDoc none (some "PDF1", none)
            (some "<html>1</html>", none) 1).1
          (some "disk error") (none, none) (none, none) 2).1
        none (none, some "soffice: crash") (none, some "bad zip") 3).1 =
      { pdf_file := some "PDF1", html_content := "<html>1</html>",
        html_file := some "<html>1</html>", status := "completed",
        error_message := "disk error", processed_at := some 3 } ∧
      "pdf_error" ∈
        (reprocess_document
          (process_document
            (process_document freshDoc none (some "PDF1", none)
              (some "<html>1</html>", none) 1).1
            (some "disk error") (none, none) (none, none) 2).1
          none (none, some "soffice: crash") (none, some "bad zip") 3).2.map
          (·.action) ∧
      "html_error" ∈
        (reprocess_document
          (process_document
            (process_document freshDoc none (some "PDF1", none)
              (some "<html>1</html>", none) 1).1
            (some "disk error") (none, none) (none, none) 2).1
          none (none, some "soffice: crash") (none, some "bad zip") 3).2.map
          (·.action)) := by
  refine ⟨?_, by decide, by decide, by decide⟩
  intro doc exc pdfRes htmlRes now
  cases exc with
  | some e =>
    refine ⟨fun _ => rfl, fun _ => ⟨rfl, rfl⟩, fun h => by simp at h,
      fun _ => ⟨rfl, rfl, rfl⟩, fun h => h, fun h => h⟩
  | none =>
    refine ⟨?_, ?_, ?_, fun h => by simp at h, ?_, ?_⟩
    · intro h
      calc (process_document doc none pdfRes htmlRes now).1.pdf_file =
            (pdf_step { doc with status := "processing" } pdfRes).1.pdf_file :=
          (html_step_frame _ htmlRes).1
        _ = doc.pdf_file := by rw [pdf_step_doc_of_none _ _ h]
    · intro h
      constructor
      · show (html_step
            (pdf_step { doc with status := "processing" } pdfRes).1
            htmlRes).1.html_content = doc.html_content
        rw [html_step_doc_of_none _ _ h, (pdf_step_frame _ _).1]
      · show (html_step
            (pdf_step { doc with status := "processing" } pdfRes).1
            htmlRes).1.html_file = doc.html_file
        rw [html_step_doc_of_none _ _ h, (pdf_step_frame _ _).2.1]
    · intro _
      calc (process_document doc none pdfRes htmlRes now).1.error_message =
            (pdf_step { doc with status := "processing" }
              pdfRes).1.error_message :=
          (html_step_frame _ htmlRes).2.1
        _ = doc.error_message := (pdf_step_frame _ _).2.2.1
    · intro hne
      show (html_step
          (pdf_step { doc with status := "processing" } pdfRes).1
          htmlRes).1.pdf_file ≠ none
      rw [(html_step_frame _ _).1]
      exact pdf_step_keeps_pdf _ _ hne
    · intro hne
      show (html_step
          (pdf_step { doc with status := "processing" } pdfRes).1
          htmlRes).1.html_file ≠ none
      refine html_step_keeps_html _ _ ?_
      rw [(pdf_step_frame _ _).2.1]
      exact hne

/-- Witness for the frame part of C9: with both sub-paths failing and no
exception, a previously attached PDF artifact and error message survive. -/
theorem C9_frame_effects_witness :
    ((none, some "x") : Option String × Option String).1 = none ∧
    (process_document
        { pdf_file := some "OLD", html_content := "", html_file := none,
          status := "failed", error_message := "old error",
          processed_at := none }
        none (none, some "x") (none, some "y") 9).1.pdf_file = some "OLD" := by
  refine ⟨rfl, ?_⟩
  have h := (C9_frame_effects.1
    { pdf_file := some "OLD", html_content := "", html_file := none,
      status := "failed", error_message := "old error",
      processed_at := none }
    none (none, some "x") (none, some "y") 9).1 rfl
  rw [h]

/-- C5 counterexample: a converter run that exits non-zero with an empty
stderr yields the error value `""`, which the pipeline's `elif error:`
guard treats as falsy — the PDF sub-path fails (no artifact) yet the run
logs neither a `pdf_error` nor an `error` entry, and still completes. -/
theorem C5_counterexample :
    convert_docx_to_pdf (.completed 1 "" false) "/out/doc.pdf" =
      (none, some "") ∧
    (process_document freshDoc none (none, some "")
        (some "<p>ok</p>", none) 0).1.pdf_file = none ∧
    (process_document freshDoc none (none, some "")
        (some "<p>ok</p>", none) 0).1.status = "completed" ∧
    ((process_document freshDoc none (none, some "")
        (some "<p>ok</p>", none) 0).2.filter fun e =>
        e.action = "pdf_error").length = 0 ∧
    ((process_document freshDoc none (none, some "")
        (some "<p>ok</p>", none) 0).2.filter fun e =>
        e.action = "error").length = 0 := by
  decide

/-- C5 (amended): every run appends a `start` log and exactly one
terminal-phase log (`complete` or `error`); a PDF sub-path failure whose
captured error message is non-empty — in particular a timeout — and an
HTML sub-path failure with a non-empty message each produce their
corresponding log entry.  (A sub-path failure whose captured message is
the empty string produces no log entry.) -/
theorem C5_amended_logging :
    ∀ (doc : PDFDoc) (exc : Option String)
      (pdfRes htmlRes : Option String × Option String) (now : Int),
      ((⟨"start", "Starting document conversion"⟩ : LogEntry) ∈
        (process_document doc exc pdfRes htmlRes now).2) ∧
      (((process_document doc exc pdfRes htmlRes now).2.filter fun e =>
          e.action = "complete" || e.action = "error").length = 1) ∧
      (∀ e : String, exc = none → pdfRes.1 = none → pdfRes.2 = some e →
        e ≠ "" →
        "pdf_error" ∈
          (process_document doc exc pdfRes htmlRes now).2.map (·.action)) ∧
      (∀ e : String, exc = none → htmlRes.1 = none → htmlRes.2 = some e →
        e ≠ "" →
        "html_error" ∈
          (process_document doc exc pdfRes htmlRes now).2.map (·.action)) ∧
      (∀ p : String, exc = none →
        pdfRes = convert_docx_to_pdf .timedOut p →
        "pdf_error" ∈
          (process_document doc exc pdfRes htmlRes now).2.map (·.action)) := by
  intro doc exc pdfRes htmlRes now
  cases exc with
  | some e =>
    refine ⟨by simp [process_document], by simp [process_document], ?_, ?_, ?_⟩
    · exact fun _ h => Option.noConfusion h
    · exact fun _ h => Option.noConfusion h
    · exact fun _ h => Option.noConfusion h
  | none =>
    refine ⟨by simp [process_document], ?_, ?_, ?_, ?_⟩
    · have hpdf : ((pdf_step { doc with status := "processing" }
          pdfRes).2.filter fun e =>
          e.action = "complete" || e.action = "error") = [] := by
        rw [List.filter_eq_nil_iff]
        intro a ha
        rcases pdf_step_actions _ _ a ha with h | h <;> simp [h]
      have hhtml : ((html_step
          (pdf_step { doc with status := "processing" } pdfRes).1
          htmlRes).2.filter fun e =>
          e.action = "complete" || e.action = "error") = [] := by
        rw [List.filter_eq_nil_iff]
        intro a ha
        rcases html_step_actions _ _ a ha with h | h <;> simp [h]
      simp [process_document, List.filter_append, hpdf, hhtml]
    · intro e _ hp hpe hene
      rcases pdfRes with ⟨p, pe⟩
      have hp' : p = none := hp
      subst hp'
      have hpe' : pe = some e := hpe
      subst hpe'
      simp [process_document, pdf_step, hene]
    · intro e _ hh hhe hene
      rcases htmlRes with ⟨h, he⟩
      have hh' : h = none := hh
      subst hh'
      have hhe' : he = some e := hhe
      subst hhe'
      simp [process_document, html_step, hene]
    · intro p _ htime
      subst htime
      simp [process_document, convert_docx_to_pdf, pdf_step]

/-- Witness for the amended C5 on a run whose two sub-paths fail with
non-empty error messages. -/
theorem C5_amended_logging_witness :
    ((⟨"start", "Starting document conversion"⟩ : LogEntry) ∈
      (process_document freshDoc none (none, some "boom")
        (none, some "parse error") 3).2) ∧
    "pdf_error" ∈
      (process_document freshDoc none (none, some "boom")
        (none, some "parse error") 3).2.map (·.action) ∧
    "html_error" ∈
      (process_document freshDoc none (none, some "boom")
        (none, some "parse error") 3).2.map (·.action) := by
  have h := C5_amended_logging freshDoc none (none, some "boom")
    (none, some "parse error") 3
  exact ⟨h.1, h.2.2.1 "boom" rfl rfl rfl (by decide),
    h.2.2.2.1 "parse error" rfl rfl rfl (by decide)⟩

set_option maxRecDepth 100000

/-- C8: for a word-processor document with exactly one paragraph styled
"Heading 1" holding a single bold run "Title", the HTML conversion emits
the element `<h1><strong>Title</strong></h1>`: it occurs as a substring of
the produced HTML, it is one of the emitted parts, and it is precisely the
HTML rendered for that paragraph. -/
theorem C8_heading_title :
    strHasSub (convert_docx_to_html titleDoc)
      "<h1><strong>Title</strong></h1>" = true ∧
    "<h1><strong>Title</strong></h1>" ∈ docx_html_parts titleDoc ∧
    paraHtml
      { style := some "Heading 1", alignment := .default,
        runs := [{ text := "Title", bold := true, italic := false,
                   underline := false }] } =
      "<h1><strong>Title</strong></h1>" := by
  refine ⟨by decide, by decide, by decide⟩

end SaiReeCMPO
